import Mathlib

/-!
Verification of the watch-and-rebuild orchestrator
(`packages/snaps-cli/src/cmds/watch/watchHandler.ts`).

The handler is shallowly embedded: the external collaborators (bundler,
manifest validator, evaluator, dev server, path validators) are modelled as
oracles of type `Except String Unit` giving the outcome of one invocation,
logging is modelled as an explicit list of log entries, and a resolved /
rejected promise is modelled as `Except String`.  Path matching for the
watcher's ignore list is modelled over `/`-separated segments, with `**`
matching zero or more segments and `*` matching any run of characters
inside a segment.
-/

/-- The three steps of one rebuild pipeline run, in source order:
`bundle(...)`, `manifestHandler(...)`, `evalHandler(...)`. -/
inductive Step
  | bundleStep
  | manifestStep
  | evalStep
deriving DecidableEq, Repr

/-- The tail of the `try` block of `buildSnap`: after a successful bundle
(and manifest check, when enabled), run `evalHandler` iff `shouldEval`.
`done` is the list of steps already executed. -/
def evalPhase (shouldEval : Bool) (evalR : Except String Unit) (done : List Step) :
    List Step × Except String Unit :=
  if shouldEval then
    match evalR with
    | .error e => (done ++ [Step.evalStep], .error e)
    | .ok _ => (done ++ [Step.evalStep], .ok ())
  else (done, .ok ())

/-- The body of the `try` block of `buildSnap`:
`await bundle(...); if (manifest) await manifestHandler(...); if (shouldEval) await evalHandler(...)`.
Returns the steps that were started, and the outcome of the block
(`.error` models a thrown/rejected step). -/
def pipelineBody (manifest shouldEval : Bool) (bundleR manifestR evalR : Except String Unit) :
    List Step × Except String Unit :=
  match bundleR with
  | .error e => ([Step.bundleStep], .error e)
  | .ok _ =>
    if manifest then
      match manifestR with
      | .error e => ([Step.bundleStep, Step.manifestStep], .error e)
      | .ok _ => evalPhase shouldEval evalR [Step.bundleStep, Step.manifestStep]
    else evalPhase shouldEval evalR [Step.bundleStep]

/-- One line written to the log: `logInfo msg`, or `logError msg cause`. -/
inductive LogEntry
  | info (msg : String)
  | error (msg : String) (cause : String)
deriving DecidableEq, Repr

/-- The message of the `logError` call in the `catch` clause of `buildSnap`:
`` `Error ${path === undefined ? 'during initial build' : `while processing "${path}"`}.` ``. -/
def errorContext (path : Option String) : String :=
  "Error " ++
    (match path with
      | none => "during initial build"
      | some p => "while processing \"" ++ p ++ "\"") ++ "."

/-- The observable result of one call of `buildSnap`: the log lines it wrote,
the pipeline steps it started, and the outcome of the promise it returned
(`.error` would model a rejected promise). -/
structure RunOutput where
  logs : List LogEntry
  steps : List Step
  outcome : Except String Unit
deriving Repr

/-- The log lines written before the `try` block of `buildSnap`:
`if (logMessage !== undefined) logInfo(logMessage)`. -/
def initLogs (logMessage : Option String) : List LogEntry :=
  match logMessage with
  | some msg => [LogEntry.info msg]
  | none => []

/-- `buildSnap(path?, logMessage?)`: log the message when present, run the
pipeline body, and catch any error, logging it with `errorContext path`.
The `catch` clause never rethrows, so the outcome is always `.ok ()`. -/
def buildSnap (manifest shouldEval : Bool) (bundleR manifestR evalR : Except String Unit)
    (path logMessage : Option String) : RunOutput :=
  match pipelineBody manifest shouldEval bundleR manifestR evalR with
  | (steps, .error cause) =>
    ⟨initLogs logMessage ++ [LogEntry.error (errorContext path) cause], steps, .ok ()⟩
  | (steps, .ok _) => ⟨initLogs logMessage, steps, .ok ()⟩

/-- Number of `logError` lines in a log. -/
def countErrors : List LogEntry → Nat
  | [] => 0
  | LogEntry.error _ _ :: rest => countErrors rest + 1
  | _ :: rest => countErrors rest

/-- The `.catch` attached to `buildSnap(path, ...)` in the `add` and `change`
handlers: if the promise rejected, log one more error naming the path. -/
def addChangeCatch (p : String) (r : RunOutput) : List LogEntry :=
  match r.outcome with
  | .error cause => r.logs ++ [LogEntry.error ("Error while processing \"" ++ p ++ "\".") cause]
  | .ok _ => r.logs

theorem buildSnap_outcome_ok (manifest shouldEval : Bool)
    (bundleR manifestR evalR : Except String Unit) (path logMessage : Option String) :
    (buildSnap manifest shouldEval bundleR manifestR evalR path logMessage).outcome =
      Except.ok () := by
  rcases h : pipelineBody manifest shouldEval bundleR manifestR evalR with ⟨steps, r⟩
  rcases r with cause | ⟨⟩ <;> simp [buildSnap, h]

theorem buildSnap_steps_eq (manifest shouldEval : Bool)
    (bundleR manifestR evalR : Except String Unit) (path logMessage : Option String) :
    (buildSnap manifest shouldEval bundleR manifestR evalR path logMessage).steps =
      (pipelineBody manifest shouldEval bundleR manifestR evalR).1 := by
  rcases h : pipelineBody manifest shouldEval bundleR manifestR evalR with ⟨steps, r⟩
  rcases r with cause | ⟨⟩ <;> simp [buildSnap, h]

theorem buildSnap_logs_of_error (manifest shouldEval : Bool)
    (bundleR manifestR evalR : Except String Unit) (path logMessage : Option String)
    (cause : String)
    (h : (pipelineBody manifest shouldEval bundleR manifestR evalR).2 = Except.error cause) :
    (buildSnap manifest shouldEval bundleR manifestR evalR path logMessage).logs =
      initLogs logMessage ++ [LogEntry.error (errorContext path) cause] := by
  rcases h' : pipelineBody manifest shouldEval bundleR manifestR evalR with ⟨steps, r⟩
  rw [h'] at h
  rcases r with c | ⟨⟩
  · cases h
    simp [buildSnap, h']
  · exact absurd h (by simp)

theorem buildSnap_logs_of_ok (manifest shouldEval : Bool)
    (bundleR manifestR evalR : Except String Unit) (path logMessage : Option String)
    (h : (pipelineBody manifest shouldEval bundleR manifestR evalR).2 = Except.ok ()) :
    (buildSnap manifest shouldEval bundleR manifestR evalR path logMessage).logs =
      initLogs logMessage := by
  rcases h' : pipelineBody manifest shouldEval bundleR manifestR evalR with ⟨steps, r⟩
  rw [h'] at h
  rcases r with c | ⟨⟩
  · exact absurd h (by simp)
  · simp [buildSnap, h']

/-- C4: within a single pipeline run the steps execute in the order
bundle, manifest (if enabled), eval (if enabled); the executed steps always
form a sublist of `[bundle, manifest, eval]` starting with the bundle step;
if the bundle step fails the run executes only the bundle step (so neither
manifest nor eval runs); if the manifest step fails the eval step is not
executed. -/
theorem pipeline_order_and_short_circuit (manifest shouldEval : Bool)
    (bundleR manifestR evalR : Except String Unit) :
    List.Sublist (pipelineBody manifest shouldEval bundleR manifestR evalR).1
        [Step.bundleStep, Step.manifestStep, Step.evalStep] ∧
    (pipelineBody manifest shouldEval bundleR manifestR evalR).1.head? =
        some Step.bundleStep ∧
    (∀ e, bundleR = Except.error e →
      (pipelineBody manifest shouldEval bundleR manifestR evalR).1 = [Step.bundleStep]) ∧
    (∀ e, manifest = true → manifestR = Except.error e →
      Step.evalStep ∉ (pipelineBody manifest shouldEval bundleR manifestR evalR).1) := by
  rcases bundleR with eb | u
  · refine ⟨?_, ?_, ?_, ?_⟩
    · simp [pipelineBody]
    · simp [pipelineBody]
    · intro e _
      simp [pipelineBody]
    · intro e _ _
      simp [pipelineBody]
  · cases u
    rcases manifest with _ | _
    · refine ⟨?_, ?_, ?_, ?_⟩
      · rcases shouldEval with _ | _ <;> rcases evalR with ee | ⟨⟩ <;>
          simp [pipelineBody, evalPhase]
      · rcases shouldEval with _ | _ <;> rcases evalR with ee | ⟨⟩ <;>
          simp [pipelineBody, evalPhase]
      · intro e he
        cases he
      · intro e he
        cases he
    · rcases manifestR with em | ⟨⟩
      · refine ⟨?_, ?_, ?_, ?_⟩
        · simp [pipelineBody]
        · simp [pipelineBody]
        · intro e he
          cases he
        · intro e _ _
          simp [pipelineBody]
      · refine ⟨?_, ?_, ?_, ?_⟩
        · rcases shouldEval with _ | _ <;> rcases evalR with ee | ⟨⟩ <;>
            simp [pipelineBody, evalPhase]
        · rcases shouldEval with _ | _ <;> rcases evalR with ee | ⟨⟩ <;>
            simp [pipelineBody, evalPhase]
        · intro e he
          cases he
        · intro e _ he
          cases he

theorem pipeline_order_short_circuit_case :
    (pipelineBody true true (Except.error "boom") (Except.ok ()) (Except.ok ())).1 =
      [Step.bundleStep] :=
  (pipeline_order_and_short_circuit true true (Except.error "boom")
    (Except.ok ()) (Except.ok ())).2.2.1 "boom" rfl

theorem countErrors_append (l₁ l₂ : List LogEntry) :
    countErrors (l₁ ++ l₂) = countErrors l₁ + countErrors l₂ := by
  induction l₁ with
  | nil => simp [countErrors]
  | cons x rest ih =>
    cases x <;> simp [countErrors, ih] <;> omega

theorem countErrors_initLogs (logMessage : Option String) :
    countErrors (initLogs logMessage) = 0 := by
  cases logMessage <;> rfl

/-- C5: every failure during a pipeline run is caught inside `buildSnap`:
the returned promise still resolves (outcome `.ok ()`), and the log contains
an error entry whose message is `errorContext path`, which reads
`Error during initial build.` when the run has no triggering path and
`Error while processing "<path>".` when it does. -/
theorem pipeline_failure_caught_and_logged (manifest shouldEval : Bool)
    (bundleR manifestR evalR : Except String Unit) (path logMessage : Option String)
    (cause : String)
    (h : (pipelineBody manifest shouldEval bundleR manifestR evalR).2 = Except.error cause) :
    (buildSnap manifest shouldEval bundleR manifestR evalR path logMessage).outcome =
        Except.ok () ∧
    LogEntry.error (errorContext path) cause ∈
        (buildSnap manifest shouldEval bundleR manifestR evalR path logMessage).logs ∧
    errorContext none = "Error during initial build." ∧
    (∀ p, errorContext (some p) = "Error while processing \"" ++ p ++ "\".") := by
  refine ⟨buildSnap_outcome_ok _ _ _ _ _ _ _, ?_, rfl, fun p => ?_⟩
  · rw [buildSnap_logs_of_error manifest shouldEval bundleR manifestR evalR path
      logMessage cause h]
    simp
  · simp only [errorContext]
    rw [String.append_assoc, String.append_assoc]
    rfl

theorem pipeline_failure_caught_and_logged_case :
    (buildSnap true true (Except.error "boom") (Except.ok ()) (Except.ok ())
        (some "src/index.js") (some "File changed: src/index.js")).outcome = Except.ok () ∧
    LogEntry.error (errorContext (some "src/index.js")) "boom" ∈
        (buildSnap true true (Except.error "boom") (Except.ok ()) (Except.ok ())
          (some "src/index.js") (some "File changed: src/index.js")).logs ∧
    errorContext none = "Error during initial build." ∧
    (∀ p, errorContext (some p) = "Error while processing \"" ++ p ++ "\".") :=
  pipeline_failure_caught_and_logged true true (Except.error "boom") (Except.ok ())
    (Except.ok ()) (some "src/index.js") (some "File changed: src/index.js") "boom" rfl

/-- C10: the promise returned by `buildSnap` always resolves (its `catch`
clause swallows every pipeline error), so the `.catch` handlers attached in
the `add`/`change` event handlers never add a log line, and the log of a run
holds exactly one error entry when the pipeline failed and none when it
succeeded. -/
theorem buildSnap_never_rejects (manifest shouldEval : Bool)
    (bundleR manifestR evalR : Except String Unit) (p : String) (logMessage : Option String) :
    (buildSnap manifest shouldEval bundleR manifestR evalR (some p) logMessage).outcome =
        Except.ok () ∧
    addChangeCatch p (buildSnap manifest shouldEval bundleR manifestR evalR (some p) logMessage) =
        (buildSnap manifest shouldEval bundleR manifestR evalR (some p) logMessage).logs ∧
    countErrors (buildSnap manifest shouldEval bundleR manifestR evalR (some p) logMessage).logs =
        (if (pipelineBody manifest shouldEval bundleR manifestR evalR).2.isOk then 0 else 1) := by
  refine ⟨buildSnap_outcome_ok _ _ _ _ _ _ _, ?_, ?_⟩
  · unfold addChangeCatch
    rw [buildSnap_outcome_ok]
  · rcases h : (pipelineBody manifest shouldEval bundleR manifestR evalR).2 with cause | u
    · rw [buildSnap_logs_of_error manifest shouldEval bundleR manifestR evalR _ _ cause h]
      rw [countErrors_append, countErrors_initLogs]
      rfl
    · cases u
      rw [buildSnap_logs_of_ok manifest shouldEval bundleR manifestR evalR _ _ h]
      rw [countErrors_initLogs]
      rfl

/-- Split a character list at every occurrence of `c` (the `/`-separator),
keeping empty segments, as JavaScript `split` would. -/
def splitOnChar (c : Char) : List Char → List (List Char)
  | [] => [[]]
  | x :: xs =>
    let r := splitOnChar c xs
    if x = c then [] :: r
    else
      match r with
      | [] => [[x]]
      | y :: ys => (x :: y) :: ys

/-- The `/`-separated segments of a path. -/
def segs (s : String) : List (List Char) := splitOnChar '/' s.data

/-- The final segment of a path (the whole path when it has no `/`). -/
def lastSeg (s : String) : List Char := (segs s).getLastD []

/-- Whether `pat` is an initial run of `l`. -/
def leadMatch {α : Type} [DecidableEq α] : List α → List α → Bool
  | [], _ => true
  | _ :: _, [] => false
  | a :: as, b :: bs => decide (a = b) && leadMatch as bs

/-- Whether `pat` occurs as a contiguous run somewhere in `l`.  A glob
`**/X/**` (with `**` matching zero or more segments) matches a path exactly
when the segments of `X` occur as such a run in the path's segments. -/
def matchMid {α : Type} [DecidableEq α] (pat : List α) : List α → Bool
  | [] => pat.isEmpty
  | x :: rest => leadMatch pat (x :: rest) || matchMid pat rest

/-- Whether `suf` is a final run of `l`.  A glob `**/*.X` matches a path
exactly when the path's final segment ends with `.X`. -/
def tailMatch {α : Type} [DecidableEq α] (suf l : List α) : Bool :=
  leadMatch suf.reverse l.reverse

/-- JavaScript `s.startsWith(pre)`. -/
def jsStartsWith (s pre : String) : Bool := leadMatch pre.data s.data

/-- The `ignored` option passed to the watcher, as a predicate on the path
string: the globs `**/node_modules/**`, `` `**/${dist}/**` ``, `**/test/**`,
`**/tests/**`, `**/*.test.js`, `**/*.test.ts`, and the function
`(str) => str !== '.' && str.startsWith('.')`. -/
def isIgnored (dist p : String) : Bool :=
  matchMid (segs "node_modules") (segs p) ||
  matchMid (segs dist) (segs p) ||
  matchMid (segs "test") (segs p) ||
  matchMid (segs "tests") (segs p) ||
  tailMatch ".test.js".data (lastSeg p) ||
  tailMatch ".test.ts".data (lastSeg p) ||
  (decide (p ≠ ".") && jsStartsWith p ".")

/-- The option flags destructured from `argv` that drive one watch session. -/
structure WatchFlags where
  manifest : Bool
  shouldEval : Bool
  shouldServe : Bool
deriving DecidableEq, Repr

/-- Outcomes of the external collaborators for one invocation each:
`bundle`, `manifestHandler`, `evalHandler`, `serve`. -/
structure Collab where
  bundleR : Except String Unit
  manifestR : Except String Unit
  evalR : Except String Unit
  serveR : Except String Unit

/-- What one watcher event handler did: the log lines it wrote, whether it
invoked the rebuild pipeline (`buildSnap`), and whether it invoked `serve`. -/
structure EventResult where
  logs : List LogEntry
  rebuildTriggered : Bool
  serveInvoked : Bool

/-- The continuation attached to `buildSnap()` in the `ready` handler:
`.then(() => { if (shouldServe) return serve(argv); return undefined; })
.catch((error) => logError('Error during initial build.', error))`. -/
def readyThen (shouldServe : Bool) (serveR : Except String Unit) (r : RunOutput) : EventResult :=
  match r.outcome with
  | .error cause => ⟨r.logs ++ [LogEntry.error "Error during initial build." cause], true, false⟩
  | .ok _ =>
    if shouldServe then
      match serveR with
      | .error cause => ⟨r.logs ++ [LogEntry.error "Error during initial build." cause], true, true⟩
      | .ok _ => ⟨r.logs, true, true⟩
    else ⟨r.logs, true, false⟩

/-- The `ready` handler: run `buildSnap()` with no path and no message, then
the serve continuation. -/
def runReady (fl : WatchFlags) (o : Collab) : EventResult :=
  readyThen fl.shouldServe o.serveR
    (buildSnap fl.manifest fl.shouldEval o.bundleR o.manifestR o.evalR none none)

/-- The `add` handler for a dispatched path:
`buildSnap(path, `File added: ...`).catch(...)`. -/
def runAdd (fl : WatchFlags) (o : Collab) (p : String) : EventResult :=
  ⟨addChangeCatch p
      (buildSnap fl.manifest fl.shouldEval o.bundleR o.manifestR o.evalR
        (some p) (some ("File added: " ++ p))),
    true, false⟩

/-- The `change` handler for a dispatched path:
`buildSnap(path, `File changed: ...`).catch(...)`. -/
def runChange (fl : WatchFlags) (o : Collab) (p : String) : EventResult :=
  ⟨addChangeCatch p
      (buildSnap fl.manifest fl.shouldEval o.bundleR o.manifestR o.evalR
        (some p) (some ("File changed: " ++ p))),
    true, false⟩

/-- A filesystem event as surfaced by the watcher. -/
inductive FsEvent
  | ready
  | add (path : String)
  | change (path : String)
  | unlink (path : String)
  | fsError (message : String)
deriving DecidableEq, Repr

/-- One watcher event: events whose path matches the `ignored` option are
never dispatched (the watcher suppresses them); the rest run the handler
registered for their kind. -/
def handleEvent (fl : WatchFlags) (o : Collab) (dist : String) : FsEvent → EventResult
  | FsEvent.ready => runReady fl o
  | FsEvent.add p =>
    if isIgnored dist p then ⟨[], false, false⟩ else runAdd fl o p
  | FsEvent.change p =>
    if isIgnored dist p then ⟨[], false, false⟩ else runChange fl o p
  | FsEvent.unlink p =>
    if isIgnored dist p then ⟨[], false, false⟩
    else ⟨[LogEntry.info ("File removed: " ++ p)], false, false⟩
  | FsEvent.fsError msg => ⟨[LogEntry.error ("Watcher error: " ++ msg) msg], false, false⟩

/-- A whole watch session: the results of handling each event in order. -/
def session (fl : WatchFlags) (o : Collab) (dist : String) (events : List FsEvent) :
    List EventResult :=
  events.map (handleEvent fl o dist)

/-- Whether an event is the watcher's `ready` event. -/
def isReadyE : FsEvent → Bool
  | FsEvent.ready => true
  | _ => false

theorem matchMid_of_mem {α : Type} [DecidableEq α] (x : α) (l : List α) (h : x ∈ l) :
    matchMid [x] l = true := by
  induction l with
  | nil => cases h
  | cons y rest ih =>
    rcases List.mem_cons.mp h with h1 | h2
    · subst h1
      simp [matchMid, leadMatch]
    · simp [matchMid, ih h2]

theorem runReady_serveInvoked (fl : WatchFlags) (o : Collab) :
    (runReady fl o).serveInvoked = fl.shouldServe := by
  unfold runReady readyThen
  simp only [buildSnap_outcome_ok]
  cases hf : fl.shouldServe <;> rcases hs : o.serveR with c | u <;> simp [hf, hs]

theorem runReady_logs_serve_error (fl : WatchFlags) (o : Collab) (cause : String)
    (hf : fl.shouldServe = true) (hs : o.serveR = Except.error cause) :
    LogEntry.error "Error during initial build." cause ∈ (runReady fl o).logs := by
  unfold runReady readyThen
  simp only [buildSnap_outcome_ok, hf, hs]
  simp

theorem handleEvent_serveInvoked_ready (fl : WatchFlags) (o : Collab) (dist : String)
    (ev : FsEvent) (h : (handleEvent fl o dist ev).serveInvoked = true) :
    ev = FsEvent.ready ∧ fl.shouldServe = true := by
  cases ev with
  | ready =>
    refine ⟨rfl, ?_⟩
    rw [← runReady_serveInvoked fl o]
    exact h
  | add p =>
    exfalso
    cases hi : isIgnored dist p <;> simp [handleEvent, hi, runAdd] at h
  | change p =>
    exfalso
    cases hi : isIgnored dist p <;> simp [handleEvent, hi, runChange] at h
  | unlink p =>
    exfalso
    cases hi : isIgnored dist p <;> simp [handleEvent, hi] at h
  | fsError msg =>
    exfalso
    simp [handleEvent] at h

/-- C1 (amended): the dotfile rule of the `ignored` list excludes a path
when the whole path string starts with `.` and the path is not exactly `.`:
for such paths no `add`/`change` event is dispatched and the rebuild
pipeline is never triggered. -/
theorem leading_dot_paths_never_trigger (fl : WatchFlags) (o : Collab) (dist p : String)
    (h1 : p ≠ ".") (h2 : jsStartsWith p "." = true) :
    (handleEvent fl o dist (FsEvent.add p)).rebuildTriggered = false ∧
    (handleEvent fl o dist (FsEvent.change p)).rebuildTriggered = false ∧
    (handleEvent fl o dist (FsEvent.add p)).logs = [] ∧
    (handleEvent fl o dist (FsEvent.change p)).logs = [] := by
  have hi : isIgnored dist p = true := by
    unfold isIgnored
    simp [h1, h2]
  simp [handleEvent, hi]

theorem leading_dot_paths_never_trigger_case :
    (handleEvent ⟨true, true, true⟩ ⟨Except.ok (), Except.ok (), Except.ok (), Except.ok ()⟩
        "dist" (FsEvent.add ".git")).rebuildTriggered = false ∧
    (handleEvent ⟨true, true, true⟩ ⟨Except.ok (), Except.ok (), Except.ok (), Except.ok ()⟩
        "dist" (FsEvent.change ".git")).rebuildTriggered = false ∧
    (handleEvent ⟨true, true, true⟩ ⟨Except.ok (), Except.ok (), Except.ok (), Except.ok ()⟩
        "dist" (FsEvent.add ".git")).logs = [] ∧
    (handleEvent ⟨true, true, true⟩ ⟨Except.ok (), Except.ok (), Except.ok (), Except.ok ()⟩
        "dist" (FsEvent.change ".git")).logs = [] :=
  leading_dot_paths_never_trigger ⟨true, true, true⟩
    ⟨Except.ok (), Except.ok (), Except.ok (), Except.ok ()⟩ "dist" ".git"
    (by decide) (by decide)

/-- C1 counterexample: the path `src/.env` has a final segment starting
with `.` and is not the root, yet it is not excluded: an `add` or `change`
event for it does trigger the rebuild pipeline, because the source's
dotfile predicate tests the whole path string, not the final segment. -/
theorem dotted_final_segment_not_excluded :
    lastSeg "src/.env" = ".env".data ∧
    jsStartsWith ".env" "." = true ∧
    ("src/.env" : String) ≠ "." ∧
    (handleEvent ⟨false, false, false⟩ ⟨Except.ok (), Except.ok (), Except.ok (), Except.ok ()⟩
        "dist" (FsEvent.add "src/.env")).rebuildTriggered = true ∧
    (handleEvent ⟨false, false, false⟩ ⟨Except.ok (), Except.ok (), Except.ok (), Except.ok ()⟩
        "dist" (FsEvent.change "src/.env")).rebuildTriggered = true := by
  decide

/-- C2 counterexample: with the serve flag set and a bundler that fails,
the `ready`-triggered pipeline run fails, yet `serve` is still invoked,
because `buildSnap` catches the error and its promise resolves. -/
theorem serve_starts_after_failed_initial_build :
    (pipelineBody false false (Except.error "boom") (Except.ok ()) (Except.ok ())).2 =
        Except.error "boom" ∧
    (runReady ⟨false, false, true⟩
        ⟨Except.error "boom", Except.ok (), Except.ok (), Except.ok ()⟩).serveInvoked = true :=
  ⟨rfl, rfl⟩

/-- C2 (amended): if the serve flag is set the dev server is started after
the `ready`-triggered pipeline run completes, whether or not that run
succeeded — `serve` is invoked in the `ready` handler exactly when the flag
is set, and the `ready` handler always runs the pipeline first. -/
theorem serve_started_regardless_of_build_outcome (fl : WatchFlags) (o : Collab) :
    (runReady fl o).serveInvoked = fl.shouldServe ∧
    (runReady fl o).rebuildTriggered = true := by
  constructor
  · exact runReady_serveInvoked fl o
  · unfold runReady readyThen
    simp only [buildSnap_outcome_ok]
    cases hf : fl.shouldServe <;> rcases hs : o.serveR with c | u <;> simp [hf, hs]

/-- C6: a path containing a `node_modules` segment, or lying under the
configured output directory, or containing a `test` or `tests` segment, or
whose final segment matches `*.test.js` or `*.test.ts`, is excluded: no
event for it is dispatched and the rebuild pipeline is never triggered. -/
theorem excluded_path_categories_never_dispatched (fl : WatchFlags) (o : Collab)
    (dist p : String)
    (h : "node_modules".data ∈ segs p ∨ matchMid (segs dist) (segs p) = true ∨
      "test".data ∈ segs p ∨ "tests".data ∈ segs p ∨
      tailMatch ".test.js".data (lastSeg p) = true ∨
      tailMatch ".test.ts".data (lastSeg p) = true) :
    (handleEvent fl o dist (FsEvent.add p)).rebuildTriggered = false ∧
    (handleEvent fl o dist (FsEvent.change p)).rebuildTriggered = false ∧
    (handleEvent fl o dist (FsEvent.add p)).logs = [] ∧
    (handleEvent fl o dist (FsEvent.change p)).logs = [] ∧
    (handleEvent fl o dist (FsEvent.unlink p)).logs = [] := by
  have hi : isIgnored dist p = true := by
    unfold isIgnored
    rcases h with h | h | h | h | h | h
    · have hm : matchMid (segs "node_modules") (segs p) = true := by
        have hseg : segs "node_modules" = ["node_modules".data] := by decide
        rw [hseg]
        exact matchMid_of_mem _ _ h
      simp [hm]
    · simp [h]
    · have hm : matchMid (segs "test") (segs p) = true := by
        have hseg : segs "test" = ["test".data] := by decide
        rw [hseg]
        exact matchMid_of_mem _ _ h
      simp [hm]
    · have hm : matchMid (segs "tests") (segs p) = true := by
        have hseg : segs "tests" = ["tests".data] := by decide
        rw [hseg]
        exact matchMid_of_mem _ _ h
      simp [hm]
    · simp [h]
    · simp [h]
  simp [handleEvent, hi]

theorem excluded_path_categories_never_dispatched_case :
    (handleEvent ⟨true, true, true⟩ ⟨Except.ok (), Except.ok (), Except.ok (), Except.ok ()⟩
        "dist" (FsEvent.add "a/node_modules/b.js")).rebuildTriggered = false ∧
    (handleEvent ⟨true, true, true⟩ ⟨Except.ok (), Except.ok (), Except.ok (), Except.ok ()⟩
        "dist" (FsEvent.change "a/node_modules/b.js")).rebuildTriggered = false ∧
    (handleEvent ⟨true, true, true⟩ ⟨Except.ok (), Except.ok (), Except.ok (), Except.ok ()⟩
        "dist" (FsEvent.add "a/node_modules/b.js")).logs = [] ∧
    (handleEvent ⟨true, true, true⟩ ⟨Except.ok (), Except.ok (), Except.ok (), Except.ok ()⟩
        "dist" (FsEvent.change "a/node_modules/b.js")).logs = [] ∧
    (handleEvent ⟨true, true, true⟩ ⟨Except.ok (), Except.ok (), Except.ok (), Except.ok ()⟩
        "dist" (FsEvent.unlink "a/node_modules/b.js")).logs = [] :=
  excluded_path_categories_never_dispatched ⟨true, true, true⟩
    ⟨Except.ok (), Except.ok (), Except.ok (), Except.ok ()⟩ "dist" "a/node_modules/b.js"
    (Or.inl (by decide))

/-- C9: an `unlink` (file removed) event never triggers a rebuild pipeline
run and never starts the server; for a non-excluded path it only announces
the removal, and for an excluded path it does nothing at all. -/
theorem unlink_only_announces (fl : WatchFlags) (o : Collab) (dist p : String) :
    (handleEvent fl o dist (FsEvent.unlink p)).rebuildTriggered = false ∧
    (handleEvent fl o dist (FsEvent.unlink p)).serveInvoked = false ∧
    (handleEvent fl o dist (FsEvent.unlink p)).logs =
      (if isIgnored dist p then [] else [LogEntry.info ("File removed: " ++ p)]) := by
  cases hi : isIgnored dist p <;> simp [handleEvent, hi]

/-- C8: per session the dev server is started at most once (assuming the
watcher emits `ready` at most once), only by the `ready` handler after its
pipeline run, and only when the serve flag is set; every event is handled
(a serve error does not terminate the session), and a serve error is
reported via `logError`. -/
theorem serve_started_at_most_once (fl : WatchFlags) (o : Collab) (dist : String)
    (events : List FsEvent) (h : events.countP isReadyE ≤ 1) :
    (session fl o dist events).countP (fun r => r.serveInvoked) ≤ 1 ∧
    (∀ ev ∈ events, (handleEvent fl o dist ev).serveInvoked = true →
        ev = FsEvent.ready ∧ fl.shouldServe = true) ∧
    (session fl o dist events).length = events.length ∧
    (∀ cause, fl.shouldServe = true → o.serveR = Except.error cause →
        LogEntry.error "Error during initial build." cause ∈ (runReady fl o).logs) := by
  refine ⟨?_, fun ev _ hev => handleEvent_serveInvoked_ready fl o dist ev hev,
    by simp [session], fun cause hf hs => runReady_logs_serve_error fl o cause hf hs⟩
  unfold session
  calc (events.map (handleEvent fl o dist)).countP (fun r => r.serveInvoked)
      = events.countP ((fun r => r.serveInvoked) ∘ handleEvent fl o dist) :=
        List.countP_map _ _ _
    _ ≤ events.countP isReadyE := by
        refine List.countP_mono_left (fun ev _ hev => ?_)
        rcases handleEvent_serveInvoked_ready fl o dist ev hev with ⟨he, _⟩
        subst he
        rfl
    _ ≤ 1 := h

theorem serve_started_at_most_once_case :
    (session ⟨false, false, true⟩ ⟨Except.ok (), Except.ok (), Except.ok (), Except.ok ()⟩
        "dist" [FsEvent.ready, FsEvent.add "src/a.js"]).countP (fun r => r.serveInvoked) ≤ 1 ∧
    (session ⟨false, false, true⟩ ⟨Except.ok (), Except.ok (), Except.ok (), Except.ok ()⟩
        "dist" [FsEvent.ready, FsEvent.add "src/a.js"]).length =
      ([FsEvent.ready, FsEvent.add "src/a.js"] : List FsEvent).length :=
  ⟨(serve_started_at_most_once ⟨false, false, true⟩
      ⟨Except.ok (), Except.ok (), Except.ok (), Except.ok ()⟩ "dist"
      [FsEvent.ready, FsEvent.add "src/a.js"] (by decide)).1,
    (serve_started_at_most_once ⟨false, false, true⟩
      ⟨Except.ok (), Except.ok (), Except.ok (), Except.ok ()⟩ "dist"
      [FsEvent.ready, FsEvent.add "src/a.js"] (by decide)).2.2.1⟩

/-- JavaScript `l.lastIndexOf(c)`, as an `Option`: `none` exactly when `c`
does not occur (JS would return `-1`, which the source rules out with its
`includes` guard). -/
def lastIndexOfC (c : Char) : List Char → Option Nat
  | [] => none
  | x :: xs =>
    match lastIndexOfC c xs with
    | some i => some (i + 1)
    | none => if x = c then some 0 else none

/-- `const rootDir = src.includes('/') ? src.substring(0, src.lastIndexOf('/') + 1) : '.'`
over the character list of the source path.  Computed once at startup from
`src` alone; the model is a pure function, so it is never mutated. -/
def rootDirChars (src : List Char) : List Char :=
  if src.contains '/' then
    match lastIndexOfC '/' src with
    | some i => src.take (i + 1)
    | none => src
  else ['.']

/-- Modelled from the spec's words: "if the source path contains a directory
separator, take everything up to and including the last separator; otherwise
use the current directory (`.`)" — the prefix ending at the last `/` is the
reversal of the reversed path with its trailing non-`/` run dropped. -/
def rootDirSpec (src : List Char) : List Char :=
  if src.contains '/' then (src.reverse.dropWhile (fun x => x ≠ '/')).reverse
  else ['.']

theorem lastIndexOfC_eq_none_iff (c : Char) (l : List Char) :
    lastIndexOfC c l = none ↔ ∀ x ∈ l, x ≠ c := by
  induction l with
  | nil => simp [lastIndexOfC]
  | cons y ys ih =>
    rcases h : lastIndexOfC c ys with _ | i
    · by_cases hyc : y = c
      · subst hyc
        simp [lastIndexOfC, h]
      · simp only [lastIndexOfC, h, if_neg hyc]
        constructor
        · intro _ x hx
          rcases List.mem_cons.mp hx with h1 | h2
          · subst h1
            exact hyc
          · exact ih.mp h x h2
        · intro _
          trivial
    · simp only [lastIndexOfC, h]
      constructor
      · intro hc
        simp at hc
      · intro hall
        have hnone := ih.mpr (fun x hx => hall x (List.mem_cons_of_mem _ hx))
        rw [hnone] at h
        simp at h

theorem dropWhile_append_all {α : Type} (p : α → Bool) (l₁ l₂ : List α)
    (h : ∀ x ∈ l₁, p x = true) :
    (l₁ ++ l₂).dropWhile p = l₂.dropWhile p := by
  induction l₁ with
  | nil => rfl
  | cons a as ih =>
    rw [List.cons_append, List.dropWhile_cons, h a (List.mem_cons_self a as)]
    simp only [if_true]
    exact ih (fun x hx => h x (List.mem_cons_of_mem _ hx))

theorem dropWhile_append_keep {α : Type} (p : α → Bool) (l₁ l₂ : List α)
    (h : l₁.dropWhile p ≠ []) :
    (l₁ ++ l₂).dropWhile p = l₁.dropWhile p ++ l₂ := by
  induction l₁ with
  | nil => cases h rfl
  | cons a as ih =>
    by_cases hp : p a = true
    · rw [List.dropWhile_cons, hp] at h
      simp only [if_true] at h
      rw [List.cons_append, List.dropWhile_cons, hp, List.dropWhile_cons, hp]
      simp only [if_true]
      exact ih h
    · simp [List.dropWhile_cons, hp]

theorem upToLast_eq (c : Char) (l : List Char) :
    (match lastIndexOfC c l with
      | some i => l.take (i + 1)
      | none => []) = (l.reverse.dropWhile (fun x => x ≠ c)).reverse := by
  induction l with
  | nil => rfl
  | cons y ys ih =>
    rcases h : lastIndexOfC c ys with _ | i
    · have hall : ∀ x ∈ ys, x ≠ c := (lastIndexOfC_eq_none_iff c ys).mp h
      have hdrop : (ys.reverse ++ [y]).dropWhile (fun x => x ≠ c) =
          [y].dropWhile (fun x => x ≠ c) := by
        refine dropWhile_append_all _ _ _ (fun x hx => ?_)
        simp [hall x (List.mem_reverse.mp hx)]
      by_cases hyc : y = c
      · subst hyc
        simp only [lastIndexOfC, h, if_pos rfl, List.reverse_cons, hdrop,
          List.dropWhile_cons]
        simp [List.take]
      · simp only [lastIndexOfC, h, if_neg hyc, List.reverse_cons, hdrop,
          List.dropWhile_cons]
        simp [hyc]
    · have hne : ys.reverse.dropWhile (fun x => x ≠ c) ≠ [] := by
        intro hnil
        have hall : ∀ x ∈ ys, x ≠ c := by
          intro x hx
          have := List.dropWhile_eq_nil_iff.mp hnil x (List.mem_reverse.mpr hx)
          simpa using this
        rw [(lastIndexOfC_eq_none_iff c ys).mpr hall] at h
        simp at h
      rw [h] at ih
      simp only [lastIndexOfC, h, List.reverse_cons,
        dropWhile_append_keep _ _ _ hne, List.reverse_append]
      simp only [List.take, List.reverse_cons, List.reverse_nil, List.nil_append,
        List.singleton_append, List.cons.injEq, true_and]
      simpa using ih

/-- C3: for every source path, RootDirectory (`rootDir`) equals the prefix
of the path up to and including the last `/` when the path contains one,
and equals `.` otherwise; the source computation (`includes` /
`lastIndexOf` / `substring`) agrees with the spec's description on every
path, and it is a pure value computed once from `src`. -/
theorem rootDir_matches_spec (src : List Char) :
    rootDirChars src = rootDirSpec src ∧
    (src.contains '/' = false → rootDirChars src = ['.']) := by
  constructor
  · unfold rootDirChars rootDirSpec
    by_cases hc : src.contains '/' = true
    · simp only [hc, if_true]
      rcases h : lastIndexOfC '/' src with _ | i
      · exfalso
        have hmem : '/' ∈ src := by simpa using hc
        exact (lastIndexOfC_eq_none_iff '/' src).mp h '/' hmem rfl
      · have := upToLast_eq '/' src
        rw [h] at this
        exact this
    · have hmem : '/' ∉ src := by simpa using hc
      simp [hmem]
  · intro h
    have hmem : '/' ∉ src := by simpa using h
    simp [rootDirChars, hmem]

theorem rootDir_matches_spec_case :
    rootDirChars "index.js".data = rootDirSpec "index.js".data ∧
    rootDirChars "index.js".data = ['.'] :=
  ⟨(rootDir_matches_spec "index.js".data).1,
    (rootDir_matches_spec "index.js".data).2 (by decide)⟩

/-- The observable actions of the setup phase of `watch`, in order:
`validateOutfileName(outfileName)` (only when one was supplied),
`await validateFilePath(src)`, `await validateDirPath(dist, true)` (the
`true` is the create-if-missing flag), then creating the watch
subscription (`chokidar.watch(...)`). -/
inductive SetupStep
  | validateName
  | validateFile
  | validateDir (createAllowed : Bool)
  | watchStart
deriving DecidableEq, Repr

/-- `if (outfileName) validateOutfileName(outfileName)`: the step ran iff a
name was supplied, and its outcome is the validator's. -/
def nameCheck (outfileName : Option String) (vName : String → Except String Unit) :
    List SetupStep × Except String Unit :=
  match outfileName with
  | some n =>
    match vName n with
    | .error e => ([SetupStep.validateName], .error e)
    | .ok _ => ([SetupStep.validateName], .ok ())
  | none => ([], .ok ())

/-- The setup phase of `watch`: validate the output file name (when
supplied), then the source path, then the output directory (with creation
allowed), then start the watch subscription.  A thrown validation error
propagates out (the remaining steps, including `watchStart`, never run). -/
def setup (outfileName : Option String) (vName : String → Except String Unit)
    (vFile : Except String Unit) (vDir : Bool → Except String Unit) :
    List SetupStep × Except String Unit :=
  match nameCheck outfileName vName with
  | (done, .error e) => (done, .error e)
  | (done, .ok _) =>
    match vFile with
    | .error e => (done ++ [SetupStep.validateFile], .error e)
    | .ok _ =>
      match vDir true with
      | .error e => (done ++ [SetupStep.validateFile, SetupStep.validateDir true], .error e)
      | .ok _ =>
        (done ++ [SetupStep.validateFile, SetupStep.validateDir true, SetupStep.watchStart],
          .ok ())

/-- Whether the output-file-name validation passed (vacuously when no name
was supplied). -/
def nameOk (outfileName : Option String) (vName : String → Except String Unit) : Bool :=
  match outfileName with
  | some n => (vName n).isOk
  | none => true

/-- C7: startup validation runs in the fixed order output-file-name check
(only when a name was supplied), source-path check, output-directory check
with creation allowed; the executed steps always form a prefix of that
order followed by the watch start; setup succeeds exactly when every
validation passed; and on any validation failure the watch subscription is
never created. -/
theorem startup_validation_order_and_propagation (outfileName : Option String)
    (vName : String → Except String Unit) (vFile : Except String Unit)
    (vDir : Bool → Except String Unit) :
    (setup outfileName vName vFile vDir).1 <+:
      ((match outfileName with
        | some _ => [SetupStep.validateName]
        | none => []) ++
        [SetupStep.validateFile, SetupStep.validateDir true, SetupStep.watchStart]) ∧
    (setup outfileName vName vFile vDir).2.isOk =
      (nameOk outfileName vName && vFile.isOk && (vDir true).isOk) ∧
    ((setup outfileName vName vFile vDir).2.isOk = false →
      SetupStep.watchStart ∉ (setup outfileName vName vFile vDir).1) := by
  rcases outfileName with _ | n
  · rcases hf : vFile with ef | uf
    · have hs : setup none vName (Except.error ef) vDir =
          ([SetupStep.validateFile], Except.error ef) := rfl
      rw [hs]
      refine ⟨⟨[SetupStep.validateDir true, SetupStep.watchStart], rfl⟩, ?_, ?_⟩
      · simp [nameOk, Except.isOk, Except.toBool]
      · intro _
        simp
    · cases uf
      rcases hd : vDir true with ed | ud
      · have hs : setup none vName (Except.ok ()) vDir =
            ([SetupStep.validateFile, SetupStep.validateDir true], Except.error ed) := by
          simp [setup, nameCheck, hd]
        rw [hs]
        refine ⟨⟨[SetupStep.watchStart], rfl⟩, ?_, ?_⟩
        · simp [nameOk, Except.isOk, Except.toBool, hd]
        · intro _
          simp
      · cases ud
        have hs : setup none vName (Except.ok ()) vDir =
            ([SetupStep.validateFile, SetupStep.validateDir true, SetupStep.watchStart],
              Except.ok ()) := by
          simp [setup, nameCheck, hd]
        rw [hs]
        refine ⟨⟨[], by simp⟩, ?_, ?_⟩
        · simp [nameOk, Except.isOk, Except.toBool, hd]
        · intro h
          simp [Except.isOk, Except.toBool] at h
  · rcases hn : vName n with en | un
    · have hs : setup (some n) vName vFile vDir =
          ([SetupStep.validateName], Except.error en) := by
        simp [setup, nameCheck, hn]
      rw [hs]
      refine ⟨⟨[SetupStep.validateFile, SetupStep.validateDir true, SetupStep.watchStart],
        rfl⟩, ?_, ?_⟩
      · simp [nameOk, Except.isOk, Except.toBool, hn]
      · intro _
        simp
    · cases un
      rcases hf : vFile with ef | uf
      · have hs : setup (some n) vName (Except.error ef) vDir =
            ([SetupStep.validateName, SetupStep.validateFile], Except.error ef) := by
          simp [setup, nameCheck, hn]
        rw [hs]
        refine ⟨⟨[SetupStep.validateDir true, SetupStep.watchStart], rfl⟩, ?_, ?_⟩
        · simp [nameOk, Except.isOk, Except.toBool, hn]
        · intro _
          simp
      · cases uf
        rcases hd : vDir true with ed | ud
        · have hs : setup (some n) vName (Except.ok ()) vDir =
              ([SetupStep.validateName, SetupStep.validateFile, SetupStep.validateDir true],
                Except.error ed) := by
            simp [setup, nameCheck, hn, hd]
          rw [hs]
          refine ⟨⟨[SetupStep.watchStart], rfl⟩, ?_, ?_⟩
          · simp [nameOk, Except.isOk, Except.toBool, hn, hd]
          · intro _
            simp
        · cases ud
          have hs : setup (some n) vName (Except.ok ()) vDir =
              ([SetupStep.validateName, SetupStep.validateFile, SetupStep.validateDir true,
                SetupStep.watchStart], Except.ok ()) := by
            simp [setup, nameCheck, hn, hd]
          rw [hs]
          refine ⟨⟨[], by simp⟩, ?_, ?_⟩
          · simp [nameOk, Except.isOk, Except.toBool, hn, hd]
          · intro h
            simp [Except.isOk, Except.toBool] at h

theorem startup_validation_order_and_propagation_case :
    SetupStep.watchStart ∉
      (setup (some "bundle.js") (fun _ => Except.ok ()) (Except.error "missing")
        (fun _ => Except.ok ())).1 :=
  (startup_validation_order_and_propagation (some "bundle.js") (fun _ => Except.ok ())
      (Except.error "missing") (fun _ => Except.ok ())).2.2 (by decide)
